import Mathlib

/-!
Verification of the mkui graphics backend subsystem.

The definitions below are a shallow embedding of the Rust sources in
src/graphics/{mod,kitty,sixel,blocks}.rs and src/render.rs:

* pure functions become Lean functions on Nat / List Char / String;
* machine integers are embedded as Nat with explicit reductions
  (u8 casts are % 256, u32 to u16 casts are % 65536);
* the buffered writer is embedded by returning the String of bytes that
  the Rust code writes, in write order; a fallible call returns Except,
  and the returned output String exists only on the success path, which
  mirrors the Rust statement order (all writes happen after the
  fallible PNG encoding step);
* the process environment read by backend detection is embedded as an
  explicit Env record.
-/

set_option maxRecDepth 100000

namespace Mkui

/-- ESC byte (0x1b), the escape character all emitted sequences use. -/
def escChar : Char := '\x1b'

/-- Cursor positioning sequence ESC [ r ; c H as written by the sources
    (write!(writer, "\x1b[{};{}H", row + 1, col + 1)). -/
def cursorTo (r c : Nat) : String :=
  "\x1b[" ++ toString r ++ ";" ++ toString c ++ "H"

/-! ## Backend detection (src/graphics/mod.rs, GraphicsBackend) -/

/-- Graphics rendering backend types (enum GraphicsBackend). -/
inductive GraphicsBackend where
  | Framebuffer
  | Kitty
  | Sixel
  | Blocks
deriving DecidableEq, Repr

/-- Process environment and filesystem state read by detection.
    A field of value some s embeds an environment variable that is set
    to s (std::env::var returning Ok), none embeds an unset variable. -/
structure Env where
  display : Option String
  wayland_display : Option String
  kitty_window_id : Option String
  term : Option String
  term_program : Option String
  dev_fb0_exists : Bool

/-- Substring search: needle occurs (contiguously) at some position. -/
def containsSub (needle : List Char) : List Char → Bool
  | [] => needle.isEmpty
  | c :: rest => needle.isPrefixOf (c :: rest) || containsSub needle rest

/-- Rust str::contains (substring containment) on embedded strings. -/
def strContains (hay needle : String) : Bool :=
  containsSub needle.data hay.data

/-- has_framebuffer: DISPLAY or WAYLAND_DISPLAY set means false,
    otherwise whether /dev/fb0 exists. -/
def has_framebuffer (e : Env) : Bool :=
  if e.display.isSome || e.wayland_display.isSome then false
  else e.dev_fb0_exists

/-- has_kitty: KITTY_WINDOW_ID set, or TERM (defaulted to empty) contains
    the substring kitty. -/
def has_kitty (e : Env) : Bool :=
  e.kitty_window_id.isSome || strContains (e.term.getD "") "kitty"

/-- has_sixel: TERM contains mlterm or xterm, or TERM_PROGRAM contains
    iTerm. -/
def has_sixel (e : Env) : Bool :=
  strContains (e.term.getD "") "mlterm"
    || strContains (e.term.getD "") "xterm"
    || strContains (e.term_program.getD "") "iTerm"

/-- GraphicsBackend::detect, first match wins, Blocks as fallback. -/
def detect (e : Env) : GraphicsBackend :=
  if has_framebuffer e then GraphicsBackend.Framebuffer
  else if has_kitty e then GraphicsBackend.Kitty
  else if has_sixel e then GraphicsBackend.Sixel
  else GraphicsBackend.Blocks

/-! ## Tmux passthrough escaping -/

/-- str::replace of the single char ESC by two ESC bytes, as done before
    every tmux passthrough write (kitty.rs line 207, sixel.rs line 29,
    mod.rs line 231). -/
def tmux_escape : List Char → List Char
  | [] => []
  | c :: rest =>
    if c = escChar then escChar :: escChar :: tmux_escape rest
    else c :: tmux_escape rest

/-- Inverse direction of the doubling: collapse each doubled ESC pair
    back to a single ESC, leaving other bytes alone. -/
def tmux_unescape : List Char → List Char
  | [] => []
  | c :: rest =>
    if c = escChar then
      match rest with
      | [] => [escChar]
      | d :: rest2 =>
        if d = escChar then escChar :: tmux_unescape rest2
        else escChar :: tmux_unescape (d :: rest2)
    else c :: tmux_unescape rest

/-- String-level tmux escaping. -/
def tmux_escape_str (s : String) : String :=
  String.mk (tmux_escape s.data)

/-- DCS passthrough wrapper ESC P tmux ; payload ESC backslash
    (write!(writer, "\x1bPtmux;{}\x1b\\", escaped)). -/
def tmux_wrap (s : String) : String :=
  "\x1bPtmux;" ++ s ++ "\x1b\\"

/-- Concatenation of a list of separately written pieces, in write
    order. -/
def strJoin : List String → String
  | [] => ""
  | s :: rest => s ++ strJoin rest

/-! ## Unicode placeholder diacritics (src/graphics/mod.rs lines 90-129) -/

/-- Unicode placeholder character for the Kitty graphics protocol
    (U+10EEEE). -/
def PLACEHOLDER_CHAR : Char := Char.ofNat 0x10EEEE

/-- Row and column diacritics for Unicode placeholders, transcribed from
    the DIACRITICS table in src/graphics/mod.rs. -/
def DIACRITICS : List Nat := [
  0x0305, 0x030D, 0x030E, 0x0310, 0x0312, 0x033D, 0x033E, 0x033F, 0x0346, 0x034A,
  0x034B, 0x034C, 0x0350, 0x0351, 0x0352, 0x0357, 0x035B, 0x0363, 0x0364, 0x0365,
  0x0366, 0x0367, 0x0368, 0x0369, 0x036A, 0x036B, 0x036C, 0x036D, 0x036E, 0x036F,
  0x0483, 0x0484, 0x0485, 0x0486, 0x0487, 0x0592, 0x0593, 0x0594, 0x0595, 0x0597,
  0x0598, 0x0599, 0x059C, 0x059D, 0x059E, 0x059F, 0x05A0, 0x05A1, 0x05A8, 0x05A9,
  0x05AB, 0x05AC, 0x05AF, 0x05C4, 0x0610, 0x0611, 0x0612, 0x0613, 0x0614, 0x0615,
  0x0616, 0x0617, 0x0657, 0x0658, 0x0659, 0x065A, 0x065B, 0x065D, 0x065E, 0x06D6,
  0x06D7, 0x06D8, 0x06D9, 0x06DA, 0x06DB, 0x06DC, 0x06DF, 0x06E0, 0x06E1, 0x06E2,
  0x06E4, 0x06E7, 0x06E8, 0x06EB, 0x06EC, 0x0730, 0x0732, 0x0733, 0x0735, 0x0736,
  0x073A, 0x073D, 0x073F, 0x0740, 0x0741, 0x0743, 0x0745, 0x0747, 0x0749, 0x074A,
  0x07EB, 0x07EC, 0x07ED, 0x07EE, 0x07EF, 0x07F0, 0x07F1, 0x07F3, 0x0816, 0x0817,
  0x0818, 0x0819, 0x081B, 0x081C, 0x081D, 0x081E, 0x081F, 0x0820, 0x0821, 0x0822,
  0x0823, 0x0825, 0x0826, 0x0827, 0x0829, 0x082A, 0x082B, 0x082C, 0x082D, 0x0951,
  0x0953, 0x0954, 0x0F82, 0x0F83, 0x0F86, 0x0F87, 0x135D, 0x135E, 0x135F, 0x17DD,
  0x193A, 0x1A17, 0x1A75, 0x1A76, 0x1A77, 0x1A78, 0x1A79, 0x1A7A, 0x1A7B, 0x1A7C,
  0x1B6B, 0x1B6D, 0x1B6E, 0x1B6F, 0x1B70, 0x1B71, 0x1B72, 0x1B73, 0x1CD0, 0x1CD1,
  0x1CD2, 0x1CDA, 0x1CDB, 0x1CE0, 0x1DC0, 0x1DC1, 0x1DC3, 0x1DC4, 0x1DC5, 0x1DC6,
  0x1DC7, 0x1DC8, 0x1DC9, 0x1DCB, 0x1DCC, 0x1DD1, 0x1DD2, 0x1DD3, 0x1DD4, 0x1DD5,
  0x1DD6, 0x1DD7, 0x1DD8, 0x1DD9, 0x1DDA, 0x1DDB, 0x1DDC, 0x1DDD, 0x1DDE, 0x1DDF,
  0x1DE0, 0x1DE1, 0x1DE2, 0x1DE3, 0x1DE4, 0x1DE5, 0x1DE6, 0x1DFE, 0x20D0, 0x20D1,
  0x20D4, 0x20D5, 0x20D6, 0x20D7, 0x20DB, 0x20DC, 0x20E1, 0x20E7, 0x20E9, 0x20F0,
  0x2CEF, 0x2CF0, 0x2CF1, 0x2DE0, 0x2DE1, 0x2DE2, 0x2DE3, 0x2DE4, 0x2DE5, 0x2DE6,
  0x2DE7, 0x2DE8, 0x2DE9, 0x2DEA, 0x2DEB, 0x2DEC, 0x2DED, 0x2DEE, 0x2DEF, 0x2DF0,
  0x2DF1, 0x2DF2, 0x2DF3, 0x2DF4, 0x2DF5, 0x2DF6, 0x2DF7, 0x2DF8, 0x2DF9, 0x2DFA,
  0x2DFB, 0x2DFC, 0x2DFD, 0x2DFE, 0x2DFF, 0xA66F, 0xA67C, 0xA67D, 0xA6F0, 0xA6F1,
  0xA8E0, 0xA8E1, 0xA8E2, 0xA8E3, 0xA8E4, 0xA8E5, 0xA8E6, 0xA8E7, 0xA8E8, 0xA8E9,
  0xA8EA, 0xA8EB, 0xA8EC, 0xA8ED, 0xA8EE, 0xA8EF, 0xA8F0, 0xA8F1, 0xAAB0, 0xAAB2,
  0xAAB3, 0xAAB7, 0xAAB8, 0xAABE, 0xAABF, 0xAAC1, 0xFE20, 0xFE21, 0xFE22, 0xFE23,
  0xFE24, 0xFE25, 0xFE26
]

/-- Rust "as u8" cast on an embedded machine integer. -/
def u8_cast (n : Nat) : Nat := n % 256

/-- char::from_u32 followed by unwrap_or of U+0305: the char with the
    given code point when it is a Unicode scalar value, U+0305 otherwise. -/
def char_from_u32_or_default (n : Nat) : Char :=
  if n.isValidChar then Char.ofNat n else '\u0305'

/-- get_diacritic: look up the table at a u8 index (a Nat below 256 at
    every call site), with the out-of-table default branch kept. -/
def get_diacritic (index : Nat) : Char :=
  if index < DIACRITICS.length then
    char_from_u32_or_default (DIACRITICS.getD index 0)
  else '\u0305'

/-- Diacritic actually emitted by render_kitty_placeholder for a row or
    column index r, which the source casts with "as u8" before the
    lookup (kitty.rs lines 229-230). -/
def emitted_diacritic (r : Nat) : Char := get_diacritic (u8_cast r)

/-! ## Chunking (kitty.rs, CHUNK_SIZE = 4096) -/

/-- slice::chunks (Rust standard library, external to the repository):
    per its documented behavior it yields ceil(len/n) consecutive
    sub-slices, the i-th holding the n elements from offset n*i and the
    last holding the remainder.  A chunk size of 0 panics in Rust and is
    never used. -/
def chunksOf (n : Nat) (l : List Char) : List (List Char) :=
  (List.range ((l.length + (n - 1)) / n)).map (fun i => (l.drop (n * i)).take n)

/-- Embedding of the for-loop "for (i, chunk) in chunks.enumerate()":
    one output String per chunk, built from the running index. -/
def emit_chunks (f : Nat → List Char → String) : Nat → List (List Char) → List String
  | _, [] => []
  | i, c :: cs => f i c :: emit_chunks f (i + 1) cs

/-! ## Base64 (external base64 crate, STANDARD engine: RFC 4648
    standard alphabet with padding, as requested by encode_base64 in
    kitty.rs lines 245-254) -/

/-- Observable state of an ImageRenderer. -/
structure RendererState where
  backend : GraphicsBackend
  in_tmux : Bool
  animation_image_id : Option Nat
  animation_initialized : Bool
deriving DecidableEq

/-- reset_animation (mod.rs lines 205-208). -/
def reset_animation (s : RendererState) : RendererState :=
  { s with animation_image_id := none, animation_initialized := false }

/-- set_unicode_placeholders (mod.rs line 218): an empty body; the
    String component is the writer output (none). -/
def set_unicode_placeholders (s : RendererState) (_enabled : Bool) :
    RendererState × String :=
  (s, "")

/-- Branch taken by render_kitty_encoded (kitty.rs line 71): the
    placeholder path is used exactly when in_tmux holds. -/
def uses_placeholder_mode (s : RendererState) : Bool := s.in_tmux

/-- delete_all_images (mod.rs lines 221-238): reset animation tracking,
    then emit the delete command only on the Kitty backend, tmux-wrapped
    when in_tmux. -/
def delete_all_images (s : RendererState) : RendererState × String :=
  let s2 := reset_animation s
  if s.backend ≠ GraphicsBackend.Kitty then (s2, "")
  else if s.in_tmux then
    (s2, tmux_wrap (tmux_escape_str "\x1b_Ga=d,d=I,i=1,q=2\x1b\\"))
  else (s2, "\x1b_Ga=d,d=I,i=1,q=2\x1b\\")

/-! ## Kitty encoder (src/graphics/kitty.rs) -/

/-- Command parameter string built by render_kitty_encoded
    (kitty.rs lines 59-65). -/
def kitty_cmd_str (image_id cols rows : Nat) : String :=
  "a=T,f=100,t=d,i=" ++ toString image_id ++ ",c=" ++ toString cols
    ++ ",r=" ++ toString rows ++ ",C=1,q=2"

/-- Cell-count defaults applied by render_kitty_encoded
    (kitty.rs lines 55-56): unwrap_or(40) columns, unwrap_or(10) rows. -/
def kitty_default_cells (width_cells height_cells : Option Nat) : Nat × Nat :=
  (width_cells.getD 40, height_cells.getD 10)

/-- One loop iteration of render_kitty_direct (kitty.rs lines 92-111):
    the string written for chunk number i of total chunks. -/
def kitty_direct_chunk (cmd_str : String) (total i : Nat) (chunk : List Char) : String :=
  let m : Nat := if i = total - 1 then 0 else 1
  (if i = 0 then "\x1b_G" ++ cmd_str ++ ",m=" ++ toString m ++ ";"
   else "\x1b_Gm=" ++ toString m ++ ";")
    ++ String.mk chunk ++ "\x1b\\"

/-- render_kitty_direct: the list of chunk strings written, in order. -/
def kitty_direct_chunks (cmd_str : String) (encoded : List Char) : List String :=
  emit_chunks (kitty_direct_chunk cmd_str ((encoded.length + 4095) / 4096)) 0
    (chunksOf 4096 encoded)

/-- One loop iteration of render_kitty_placeholder (kitty.rs lines
    184-205): the line_buffer content for chunk i, before tmux escaping. -/
def kitty_placeholder_line (image_id cols rows total i : Nat) (chunk : List Char) : String :=
  let m : Nat := if i = total - 1 then 0 else 1
  (if i = 0 then
     "\x1b_Ga=T,f=100,t=d,i=" ++ toString image_id ++ ",c=" ++ toString cols
       ++ ",r=" ++ toString rows ++ ",U=1,q=2,m=" ++ toString m ++ ";"
   else "\x1b_Gm=" ++ toString m ++ ";")
    ++ String.mk chunk ++ "\x1b\\"

/-- render_kitty_placeholder transmission loop: the pre-escaping chunk
    strings, in order. -/
def kitty_placeholder_chunks (image_id cols rows : Nat) (encoded : List Char) : List String :=
  emit_chunks (kitty_placeholder_line image_id cols rows ((encoded.length + 4095) / 4096)) 0
    (chunksOf 4096 encoded)

/-- Wire output of the transmission loop: each chunk string is
    ESC-doubled and wrapped in the tmux DCS passthrough
    (kitty.rs lines 207-208). -/
def kitty_placeholder_emitted (image_id cols rows : Nat) (encoded : List Char) : List String :=
  (kitty_placeholder_chunks image_id cols rows encoded).map
    (fun l => tmux_wrap (tmux_escape_str l))

/-- Placeholder grid emission (kitty.rs lines 211-239): cursor move,
    foreground color encoding the image id, rows x cols placeholder
    cells with row and column diacritics, a cursor move at the start of
    every row after the first, and the final color reset.  Positions are
    u16, so the additions reduce modulo 65536. -/
def placeholder_grid (image_id cols rows col row : Nat) : String :=
  cursorTo ((row + 1) % 65536) ((col + 1) % 65536)
    ++ (if image_id < 256 then "\x1b[38;5;" ++ toString image_id ++ "m"
        else "\x1b[38;2;" ++ toString (image_id / 65536 % 256) ++ ";"
          ++ toString (image_id / 256 % 256) ++ ";" ++ toString (image_id % 256) ++ "m")
    ++ strJoin ((List.range rows).map (fun r =>
        (if 0 < r then cursorTo ((row + 1 + r) % 65536) ((col + 1) % 65536) else "")
          ++ strJoin ((List.range cols).map (fun c =>
              String.mk [PLACEHOLDER_CHAR, emitted_diacritic r, emitted_diacritic c]))))
    ++ "\x1b[39m"

/-- ImageBuffer::get_pixel on the raw RGB container: the three samples
    at offset (y*width + x)*3. -/
def get_pixel (data : List Nat) (width x y : Nat) : Nat × Nat × Nat :=
  ((data.getD ((y * width + x) * 3) 0),
   (data.getD ((y * width + x) * 3 + 1) 0),
   (data.getD ((y * width + x) * 3 + 2) 0))

/-- Rows visited by "for y in (0..height).step_by(6)": 0, 6, 12, ...,
    one per sixel band, ceil(height/6) of them. -/
def sixel_band_rows (height : Nat) : List Nat :=
  (List.range ((height + 5) / 6)).map (fun i => i * 6)

/-- Percent scaling "channel * 100 / 255" as the source computes it: the
    channel is a u8, so the product wraps modulo 256 before the division
    (release build; a debug build panics on the overflow instead). -/
def sixel_percent (channel : Nat) : Nat :=
  u8_cast (channel * 100) / 255

/-- encode_sixel (sixel.rs lines 40-72): DCS header, one color register
    definition plus one pixel command per horizontal pixel per band, a
    band terminator, and the string terminator. -/
def encode_sixel (data : List Nat) (width height : Nat) : String :=
  "\x1bPq"
    ++ strJoin ((sixel_band_rows height).map (fun y =>
        strJoin ((List.range width).map (fun x =>
          let p := get_pixel data width x y
          "#1;2;" ++ toString (sixel_percent p.1) ++ ";"
            ++ toString (sixel_percent p.2.1) ++ ";"
            ++ toString (sixel_percent p.2.2) ++ "#1?"))
          ++ "$-"))
    ++ "\x1b\\"

/-- Fixed 8-entry density glyph table. -/
def BLOCKS : List Char := [' ', '░', '░', '▒', '▒', '▓', '▓', '█']

/-- Cell-count defaults applied by render_blocks (blocks.rs lines
    23-24): unwrap_or(width as u16 / 2) and unwrap_or(height as u16 / 4);
    the u32 to u16 cast truncates modulo 65536. -/
def blocks_default_cells (width height : Nat) (width_cells height_cells : Option Nat) :
    Nat × Nat :=
  (width_cells.getD (width % 65536 / 2), height_cells.getD (height % 65536 / 4))

/-- Character chosen for cell (cx, cy) (blocks.rs lines 38-58): sample
    one pixel, bucket the mean of the channels into the glyph table,
    blank on any out-of-range access. -/
def blocks_cell_char (data : List Nat) (width height ppcx ppcy cx cy : Nat) : Char :=
  let px := cx * ppcx
  let py := cy * ppcy
  if px < width ∧ py < height then
    let idx := (py * width + px) * 3
    if idx + 2 < data.length then
      let brightness := (data.getD idx 0 + data.getD (idx + 1) 0 + data.getD (idx + 2) 0) / 3
      BLOCKS.getD (min (brightness / 32) 7) ' '
    else ' '
  else ' '

/-- render_blocks (blocks.rs lines 12-71): one cursor-positioned line of
    glyphs per cell row; nothing at all when a cell dimension is zero.
    The row number written is row + cy as u16 + 1 in u16 arithmetic. -/
def render_blocks_lines (data : List Nat) (width height col row : Nat)
    (width_cells height_cells : Option Nat) : List String :=
  let cells := blocks_default_cells width height width_cells height_cells
  if cells.1 = 0 ∨ cells.2 = 0 then []
  else
    (List.range cells.2).map (fun cy =>
      cursorTo ((row + cy % 65536 + 1) % 65536) ((col + 1) % 65536)
        ++ String.mk ((List.range cells.1).map (fun cx =>
            blocks_cell_char data width height (width / cells.1) (height / cells.2) cx cy)))

/-! ## Dispatch (src/graphics/mod.rs, render_image / render_image_rgba)
    and the renderer-level cell estimate (src/render.rs) -/

/-- Cell estimate used by Renderer::render_image and render_image_rgba
    for dirty-region marking (render.rs lines 294-295 and 332-333):
    unwrap_or((width / 10) as u16) and unwrap_or((height / 20) as u16). -/
def dirty_mark_cells (width height : Nat) (width_cells height_cells : Option Nat) :
    Nat × Nat :=
  (width_cells.getD (width / 10 % 65536), height_cells.getD (height / 20 % 65536))

/-! ## Helper lemmas -/

theorem data_append (a b : String) : (a ++ b).data = a.data ++ b.data := by
  cases a
  cases b
  rfl

/-- Occurrences of one character in a written byte stream. -/
def charCount (c : Char) (s : String) : Nat := s.data.count c

theorem charCount_append (c : Char) (a b : String) :
    charCount c (a ++ b) = charCount c a + charCount c b := by
  simp [charCount, data_append]

theorem charCount_strJoin (c : Char) (L : List String) :
    charCount c (strJoin L) = (L.map (charCount c)).sum := by
  induction L with
  | nil => rfl
  | cons s rest ih => simp [strJoin, charCount_append, ih]

theorem sum_map_const (n x : Nat) : ((List.range n).map (fun _ => x)).sum = n * x := by
  induction n with
  | zero => simp
  | succ n ih => rw [List.range_succ]; simp [ih, Nat.succ_mul]

theorem digitChar_val_lt (d : Nat) : (Nat.digitChar d).val.toNat < 128 := by
  rcases Nat.lt_or_ge d 16 with h | h
  · interval_cases d <;> decide
  · unfold Nat.digitChar
    repeat rw [if_neg (by omega)]
    decide

theorem mem_toDigitsCore (b f : Nat) : ∀ (n : Nat) (acc : List Char) (c : Char),
    c ∈ Nat.toDigitsCore b f n acc → c ∈ acc ∨ ∃ d, c = Nat.digitChar d := by
  induction f with
  | zero => intro n acc c h; exact Or.inl h
  | succ f ih =>
    intro n acc c h
    simp only [Nat.toDigitsCore] at h
    split at h
    · rcases List.mem_cons.mp h with h1 | h1
      · exact Or.inr ⟨n % b, h1⟩
      · exact Or.inl h1
    · rcases ih (n / b) (Nat.digitChar (n % b) :: acc) c h with h1 | h1
      · rcases List.mem_cons.mp h1 with h2 | h2
        · exact Or.inr ⟨n % b, h2⟩
        · exact Or.inl h2
      · exact Or.inr h1

theorem toString_char_small (n : Nat) (c : Char) (hc : c ∈ (toString n).data) :
    c.val.toNat < 128 := by
  have hmem : c ∈ Nat.toDigitsCore 10 (n + 1) n [] := hc
  rcases mem_toDigitsCore 10 (n + 1) n [] c hmem with h | ⟨d, hd⟩
  · cases h
  · rw [hd]; exact digitChar_val_lt d

theorem charCount_toString_big (c : Char) (hbig : 128 ≤ c.val.toNat) (n : Nat) :
    charCount c (toString n) = 0 := by
  refine List.count_eq_zero.mpr (fun hmem => ?_)
  have := toString_char_small n c hmem
  omega

theorem charCount_small_lit (s : String) (c : Char) (hbig : 128 ≤ c.val.toNat)
    (hs : s.data.all (fun d => decide (d.val.toNat < 128)) = true) :
    charCount c s = 0 := by
  refine List.count_eq_zero.mpr (fun hmem => ?_)
  have h2 := List.all_eq_true.mp hs c hmem
  simp only [decide_eq_true_eq] at h2
  omega

theorem charCount_cursorTo (c : Char) (hbig : 128 ≤ c.val.toNat) (r k : Nat) :
    charCount c (cursorTo r k) = 0 := by
  simp only [cursorTo, charCount_append]
  rw [charCount_small_lit "\x1b[" c hbig (by decide),
    charCount_toString_big c hbig r,
    charCount_small_lit ";" c hbig (by decide),
    charCount_toString_big c hbig k,
    charCount_small_lit "H" c hbig (by decide)]

/-! ## Claim theorems -/

/-- C10: set_unicode_placeholders changes no field of the renderer state
    and writes no output; the delivery-mode branch, which reads only
    in_tmux, is untouched by it. -/
theorem set_unicode_placeholders_is_noop (s : RendererState) (b : Bool) :
    (set_unicode_placeholders s b).1 = s
    ∧ (set_unicode_placeholders s b).2 = ""
    ∧ (set_unicode_placeholders s b).1.backend = s.backend
    ∧ (set_unicode_placeholders s b).1.in_tmux = s.in_tmux
    ∧ (set_unicode_placeholders s b).1.animation_image_id = s.animation_image_id
    ∧ (set_unicode_placeholders s b).1.animation_initialized = s.animation_initialized
    ∧ uses_placeholder_mode (set_unicode_placeholders s b).1 = uses_placeholder_mode s :=
  ⟨rfl, rfl, rfl, rfl, rfl, rfl, rfl⟩

/-- C6: delete_all_images always resets the animation tracking fields;
    it emits the delete-by-id command exactly on the Kitty backend
    (tmux-wrapped when in_tmux) and writes nothing on the others; and a
    second call leaves the state of the first call unchanged. -/
theorem delete_all_images_spec (s : RendererState) :
    (delete_all_images s).1.animation_image_id = none
    ∧ (delete_all_images s).1.animation_initialized = false
    ∧ (delete_all_images s).1.backend = s.backend
    ∧ (delete_all_images s).1.in_tmux = s.in_tmux
    ∧ (delete_all_images s).2 =
        (if s.backend = GraphicsBackend.Kitty then
          (if s.in_tmux then tmux_wrap (tmux_escape_str "\x1b_Ga=d,d=I,i=1,q=2\x1b\\")
           else "\x1b_Ga=d,d=I,i=1,q=2\x1b\\")
         else "")
    ∧ (delete_all_images (delete_all_images s).1).1 = (delete_all_images s).1 := by
  obtain ⟨b, t, id, init⟩ := s
  cases b <;> cases t <;>
    simp [delete_all_images, reset_animation]

/-- C7 counterexample: with cell counts omitted, the Blocks backend
    estimates (width/2, height/4) cells, not (width/8, height/16): at a
    16x32 image the code yields (8, 8) where the claim requires (2, 2);
    and the Kitty backend uses the fixed default (40, 10), not
    (width/10, height/20), which at a 100x200 image would be (10, 10). -/
theorem cell_estimate_cex :
    blocks_default_cells 16 32 none none = (8, 8)
    ∧ blocks_default_cells 16 32 none none ≠ (16 / 8, 32 / 16)
    ∧ kitty_default_cells none none = (40, 10)
    ∧ kitty_default_cells none none ≠ (100 / 10, 200 / 20) := by
  refine ⟨rfl, by decide, rfl, by decide⟩

/-- C7 amended: with cell counts omitted, the Blocks backend estimates
    (width as u16)/2 columns and (height as u16)/4 rows and emits one
    line per estimated row; the Kitty backend uses the fixed default of
    40 columns and 10 rows independent of the pixel size; the
    dirty-region marking in render.rs estimates (width/10, height/20)
    cells truncated to u16. -/
theorem cell_estimate_spec (data : List Nat) (width height col row : Nat)
    (wc hc : Option Nat) :
    blocks_default_cells width height none none
      = (width % 65536 / 2, height % 65536 / 4)
    ∧ kitty_default_cells none none = (40, 10)
    ∧ dirty_mark_cells width height none none
      = (width / 10 % 65536, height / 20 % 65536)
    ∧ blocks_default_cells width height (some (width / 8)) (some (height / 16))
      = (width / 8, height / 16)
    ∧ (render_blocks_lines data width height col row wc hc).length
      = (if (blocks_default_cells width height wc hc).1 = 0
            ∨ (blocks_default_cells width height wc hc).2 = 0 then 0
         else (blocks_default_cells width height wc hc).2) := by
  refine ⟨rfl, rfl, rfl, rfl, ?_⟩
  simp only [render_blocks_lines]
  split
  · simp
  · simp

/-- C8 counterexample: the diacritic table has 283 entries, not 256, and
    an out-of-range index is reduced modulo 256 by the u8 cast rather
    than replaced by the default diacritic U+0305: index 257 produces
    the table entry of index 1 (U+030D), not U+0305. -/
theorem diacritic_table_cex :
    DIACRITICS.length ≠ 256
    ∧ emitted_diacritic 257 ≠ '̅'
    ∧ emitted_diacritic 257 = get_diacritic 1 := by
  refine ⟨by decide, by decide, rfl⟩

set_option maxHeartbeats 3200000 in
/-- C8 amended: the diacritic table is a fixed 283-entry table; row and
    column indices 0-255 map 1:1 (no two of them share an emitted
    diacritic); an index of 256 or larger is reduced modulo 256 by the
    u8 cast before the lookup, reusing an in-range diacritic instead of
    a designated default. -/
theorem diacritic_table_spec :
    DIACRITICS.length = 283
    ∧ ((List.range 256).map emitted_diacritic).Nodup
    ∧ ∀ r : Nat, emitted_diacritic r = get_diacritic (r % 256) := by
  refine ⟨by decide, by decide, fun r => rfl⟩

/-- C9: evaluation at the failing input, a 1x1 pure-red RGB image.  The
    source computes channel * 100 / 255 in u8 arithmetic, so the product
    wraps modulo 256 (a debug build panics on the overflow): the red
    channel 255 yields the color register value (255*100) % 256 / 255
    = 0 where the intended percent scale gives 255 * 100 / 255 = 100. -/
theorem sixel_percent_overflow :
    encode_sixel [255, 0, 0] 1 1 = "\x1bPq#1;2;0;0;0#1?$-\x1b\\"
    ∧ sixel_percent 255 = 0
    ∧ 255 * 100 / 255 = 100 := by
  refine ⟨by decide, rfl, rfl⟩

/-- C3: the tmux escaping step doubles every literal ESC byte, so the
    escaped output carries exactly twice as many ESC bytes as its input,
    and collapsing every doubled pair recovers the input exactly; in
    placeholder mode it is applied to each chunk separately before the
    DCS passthrough wrapping. -/
theorem tmux_escape_spec (l : List Char) :
    (tmux_escape l).count escChar = 2 * l.count escChar
    ∧ tmux_unescape (tmux_escape l) = l
    ∧ ∀ image_id cols rows p, kitty_placeholder_emitted image_id cols rows p
        = (kitty_placeholder_chunks image_id cols rows p).map
            (fun ch => tmux_wrap (tmux_escape_str ch)) := by
  refine ⟨?_, ?_, fun _ _ _ _ => rfl⟩
  · induction l with
    | nil => simp [tmux_escape]
    | cons c rest ih =>
      by_cases hc : c = escChar
      · subst hc
        simp [tmux_escape, List.count_cons, ih]
        omega
      · simp [tmux_escape, hc, List.count_cons, ih]
  · induction l with
    | nil => rfl
    | cons c rest ih =>
      by_cases hc : c = escChar
      · subst hc
        simp [tmux_escape, tmux_unescape, ih]
      · simp only [tmux_escape, if_neg hc]
        rw [tmux_unescape.eq_def]
        cases htmp : tmux_escape rest with
        | nil => simp [if_neg hc]; rw [← htmp, ih]
        | cons x xs => simp only [if_neg hc]; rw [← htmp, ih]

theorem has_framebuffer_iff (e : Env) :
    has_framebuffer e = true
      ↔ (e.dev_fb0_exists = true ∧ e.display = none ∧ e.wayland_display = none) := by
  obtain ⟨d, w, k, t, tp, fb⟩ := e
  cases d <;> cases w <;> cases fb <;> simp [has_framebuffer]

theorem has_kitty_iff (e : Env) :
    has_kitty e = true
      ↔ (e.kitty_window_id.isSome = true
          ∨ strContains (e.term.getD "") "kitty" = true) := by
  simp [has_kitty]

theorem has_sixel_iff (e : Env) :
    has_sixel e = true
      ↔ (strContains (e.term.getD "") "mlterm" = true
          ∨ strContains (e.term.getD "") "xterm" = true
          ∨ strContains (e.term_program.getD "") "iTerm" = true) := by
  simp [has_sixel, or_assoc]

/-- C5: detect never fails (it is a total function into the four-value
    backend type) and resolves by first-match-wins priority:
    Framebuffer exactly when /dev/fb0 exists and neither DISPLAY nor
    WAYLAND_DISPLAY is set; otherwise Kitty when KITTY_WINDOW_ID is set
    or TERM contains kitty; otherwise Sixel when TERM contains mlterm or
    xterm or TERM_PROGRAM contains iTerm; otherwise Blocks. -/
theorem detect_spec (e : Env) :
    (detect e = GraphicsBackend.Framebuffer
      ↔ (e.dev_fb0_exists = true ∧ e.display = none ∧ e.wayland_display = none))
    ∧ (detect e = GraphicsBackend.Kitty
      ↔ (¬(e.dev_fb0_exists = true ∧ e.display = none ∧ e.wayland_display = none)
          ∧ (e.kitty_window_id.isSome = true
              ∨ strContains (e.term.getD "") "kitty" = true)))
    ∧ (detect e = GraphicsBackend.Sixel
      ↔ (¬(e.dev_fb0_exists = true ∧ e.display = none ∧ e.wayland_display = none)
          ∧ ¬(e.kitty_window_id.isSome = true
              ∨ strContains (e.term.getD "") "kitty" = true)
          ∧ (strContains (e.term.getD "") "mlterm" = true
              ∨ strContains (e.term.getD "") "xterm" = true
              ∨ strContains (e.term_program.getD "") "iTerm" = true)))
    ∧ (detect e = GraphicsBackend.Blocks
      ↔ (¬(e.dev_fb0_exists = true ∧ e.display = none ∧ e.wayland_display = none)
          ∧ ¬(e.kitty_window_id.isSome = true
              ∨ strContains (e.term.getD "") "kitty" = true)
          ∧ ¬(strContains (e.term.getD "") "mlterm" = true
              ∨ strContains (e.term.getD "") "xterm" = true
              ∨ strContains (e.term_program.getD "") "iTerm" = true))) := by
  rw [← has_framebuffer_iff, ← has_kitty_iff, ← has_sixel_iff]
  by_cases h1 : has_framebuffer e = true <;>
    by_cases h2 : has_kitty e = true <;>
      by_cases h3 : has_sixel e = true <;>
        simp [detect, h1, h2, h3]

theorem emit_chunks_length (f : Nat → List Char → String) :
    ∀ (k : Nat) (cs : List (List Char)), (emit_chunks f k cs).length = cs.length := by
  intro k cs
  induction cs generalizing k with
  | nil => rfl
  | cons c cs ih => simp [emit_chunks, ih]

theorem emit_chunks_getD (f : Nat → List Char → String) :
    ∀ (cs : List (List Char)) (k i : Nat), i < cs.length →
      (emit_chunks f k cs).getD i "" = f (k + i) (cs.getD i []) := by
  intro cs
  induction cs with
  | nil => intro k i h; simp at h
  | cons c cs ih =>
    intro k i h
    cases i with
    | zero => simp [emit_chunks]
    | succ i =>
      simp only [emit_chunks, List.getD_cons_succ]
      rw [ih (k + 1) i (by simpa using h)]
      congr 1
      omega

theorem chunksOf_length (n : Nat) (l : List Char) :
    (chunksOf n l).length = (l.length + (n - 1)) / n := by
  simp [chunksOf]

theorem chunksOf_getD (n : Nat) (l : List Char) (i : Nat)
    (h : i < (l.length + (n - 1)) / n) :
    (chunksOf n l).getD i [] = (l.drop (n * i)).take n := by
  simp only [chunksOf]
  rw [List.getD_eq_getElem?_getD, List.getElem?_map, List.getElem?_range h]
  rfl

theorem kitty_cmd_str_one (cols rows : Nat) :
    kitty_cmd_str 1 cols rows
      = "a=T,f=100,t=d,i=1,c=" ++ toString cols ++ ",r=" ++ toString rows ++ ",C=1,q=2" := by
  unfold kitty_cmd_str
  rw [show ("a=T,f=100,t=d,i=" ++ toString (1 : Nat) ++ ",c=" : String)
      = "a=T,f=100,t=d,i=1,c=" from rfl]

/-- C1: for a base64 payload of length L, both the direct-mode loop and
    the placeholder-mode transmission loop emit exactly
    ceil(L/4096) = (L + 4095) / 4096 chunks; chunk i carries the payload
    slice [4096*i, 4096*i + 4096), hence at most 4096 base64 bytes; the
    first chunk carries the full parameter string (C=1 form in direct
    mode, U=1 form plus the m flag in placeholder mode) while every
    later chunk carries only the m flag; and m is 0 exactly on the last
    chunk, 1 on every other. -/
theorem kitty_chunking_spec (cols rows : Nat) (p : List Char) :
    (kitty_direct_chunks (kitty_cmd_str 1 cols rows) p).length = (p.length + 4095) / 4096
    ∧ (kitty_placeholder_chunks 1 cols rows p).length = (p.length + 4095) / 4096
    ∧ ∀ i, i < (p.length + 4095) / 4096 →
        ((p.drop (4096 * i)).take 4096).length ≤ 4096
          ∧ ((kitty_direct_chunks (kitty_cmd_str 1 cols rows) p).getD i ""
            = (if i = 0 then
                "\x1b_G"
                  ++ ("a=T,f=100,t=d,i=1,c=" ++ toString cols ++ ",r=" ++ toString rows
                    ++ ",C=1,q=2")
                  ++ ",m=" ++ toString (if i + 1 = (p.length + 4095) / 4096 then 0 else 1) ++ ";"
              else
                "\x1b_Gm=" ++ toString (if i + 1 = (p.length + 4095) / 4096 then 0 else 1) ++ ";")
              ++ String.mk ((p.drop (4096 * i)).take 4096) ++ "\x1b\\")
          ∧ ((kitty_placeholder_chunks 1 cols rows p).getD i ""
            = (if i = 0 then
                "\x1b_Ga=T,f=100,t=d,i=1,c=" ++ toString cols ++ ",r=" ++ toString rows
                  ++ ",U=1,q=2,m=" ++ toString (if i + 1 = (p.length + 4095) / 4096 then 0 else 1)
                  ++ ";"
              else
                "\x1b_Gm=" ++ toString (if i + 1 = (p.length + 4095) / 4096 then 0 else 1) ++ ";")
              ++ String.mk ((p.drop (4096 * i)).take 4096) ++ "\x1b\\") := by
  have hlen1 : (kitty_direct_chunks (kitty_cmd_str 1 cols rows) p).length
      = (p.length + 4095) / 4096 := by
    rw [kitty_direct_chunks, emit_chunks_length, chunksOf_length]
  have hlen2 : (kitty_placeholder_chunks 1 cols rows p).length
      = (p.length + 4095) / 4096 := by
    rw [kitty_placeholder_chunks, emit_chunks_length, chunksOf_length]
  refine ⟨hlen1, hlen2, fun i hi => ?_⟩
  have hi4 : i < (p.length + (4096 - 1)) / 4096 := hi
  have hclen : i < (chunksOf 4096 p).length := by rw [chunksOf_length]; exact hi4
  have hmlast : (i = (p.length + 4095) / 4096 - 1) = (i + 1 = (p.length + 4095) / 4096) :=
    propext (by omega)
  refine ⟨by simp [List.length_take], ?_, ?_⟩
  · rw [kitty_direct_chunks, emit_chunks_getD _ _ _ _ hclen, chunksOf_getD _ _ _ hi4]
    rw [kitty_direct_chunk, kitty_cmd_str_one]
    simp only [Nat.zero_add, hmlast]
  · rw [kitty_placeholder_chunks, emit_chunks_getD _ _ _ _ hclen, chunksOf_getD _ _ _ hi4]
    rw [kitty_placeholder_line]
    rw [show ("\x1b_Ga=T,f=100,t=d,i=" ++ toString (1 : Nat) ++ ",c=" : String)
        = "\x1b_Ga=T,f=100,t=d,i=1,c=" from rfl]
    simp only [Nat.zero_add, hmlast]

/-- C1 witness: a 2-byte payload at cols = 2, rows = 1 gives a single
    chunk whose string evaluates to the literal wire form. -/
theorem kitty_chunking_spec_witness :
    (kitty_direct_chunks (kitty_cmd_str 1 2 1) (List.replicate 2 'A')).getD 0 ""
      = "\x1b_Ga=T,f=100,t=d,i=1,c=2,r=1,C=1,q=2,m=0;AA\x1b\\" := by
  have h := (kitty_chunking_spec 2 1 (List.replicate 2 'A')).2.2 0 (by decide)
  rw [h.2.1]
  decide

set_option maxHeartbeats 1600000 in
theorem get_diacritic_ne_placeholder :
    ∀ j, j < 256 → get_diacritic j ≠ PLACEHOLDER_CHAR := by decide

/-- C4: in Unicode-placeholder mode with image ID 1 and in-range rows
    and cols, after transmission the grid output is exactly: cursor to
    the 1-indexed position (row+1, col+1), foreground color set with the
    256-color sequence for ID 1, then for each of the rows x cols cells
    the placeholder char followed by the row diacritic and the column
    diacritic, with a cursor move to the start of each row after the
    first, and a final foreground reset; in particular it contains
    exactly rows * cols placeholder glyphs. -/
theorem placeholder_grid_spec (cols rows col row : Nat)
    (h1 : 0 < rows) (h2 : rows ≤ 256) (h3 : cols ≤ 256)
    (h4 : row + rows < 65536) (h5 : col + 1 < 65536) :
    placeholder_grid 1 cols rows col row
      = cursorTo (row + 1) (col + 1) ++ "\x1b[38;5;1m"
        ++ strJoin ((List.range rows).map (fun r =>
            (if 0 < r then cursorTo (row + 1 + r) (col + 1) else "")
              ++ strJoin ((List.range cols).map (fun c =>
                  String.mk [PLACEHOLDER_CHAR, get_diacritic r, get_diacritic c]))))
        ++ "\x1b[39m"
    ∧ charCount PLACEHOLDER_CHAR (placeholder_grid 1 cols rows col row) = rows * cols := by
  have e1 : (row + 1) % 65536 = row + 1 := Nat.mod_eq_of_lt (by omega)
  have e2 : (col + 1) % 65536 = col + 1 := Nat.mod_eq_of_lt h5
  have hmap : (List.range rows).map (fun r =>
        (if 0 < r then cursorTo ((row + 1 + r) % 65536) (col + 1) else "")
          ++ strJoin ((List.range cols).map (fun c =>
              String.mk [PLACEHOLDER_CHAR, emitted_diacritic r, emitted_diacritic c])))
      = (List.range rows).map (fun r =>
        (if 0 < r then cursorTo (row + 1 + r) (col + 1) else "")
          ++ strJoin ((List.range cols).map (fun c =>
              String.mk [PLACEHOLDER_CHAR, get_diacritic r, get_diacritic c]))) := by
    apply List.map_congr_left
    intro r hr
    have hrlt : r < rows := List.mem_range.mp hr
    have er : (row + 1 + r) % 65536 = row + 1 + r := Nat.mod_eq_of_lt (by omega)
    have ed : emitted_diacritic r = get_diacritic r := by
      unfold emitted_diacritic u8_cast
      rw [Nat.mod_eq_of_lt (by omega)]
    have hinner : (List.range cols).map (fun c =>
          String.mk [PLACEHOLDER_CHAR, emitted_diacritic r, emitted_diacritic c])
        = (List.range cols).map (fun c =>
          String.mk [PLACEHOLDER_CHAR, get_diacritic r, get_diacritic c]) := by
      apply List.map_congr_left
      intro c hcm
      have hclt : c < cols := List.mem_range.mp hcm
      have ec : emitted_diacritic c = get_diacritic c := by
        unfold emitted_diacritic u8_cast
        rw [Nat.mod_eq_of_lt (by omega)]
      rw [ed, ec]
    rw [er, hinner]
  have hgrid : placeholder_grid 1 cols rows col row
      = cursorTo (row + 1) (col + 1) ++ "\x1b[38;5;1m"
        ++ strJoin ((List.range rows).map (fun r =>
            (if 0 < r then cursorTo (row + 1 + r) (col + 1) else "")
              ++ strJoin ((List.range cols).map (fun c =>
                  String.mk [PLACEHOLDER_CHAR, get_diacritic r, get_diacritic c]))))
        ++ "\x1b[39m" := by
    unfold placeholder_grid
    rw [e1, e2, if_pos (by omega : (1 : Nat) < 256)]
    rw [show ("\x1b[38;5;" ++ toString (1 : Nat) ++ "m" : String) = "\x1b[38;5;1m" from rfl]
    rw [hmap]
  refine ⟨hgrid, ?_⟩
  rw [hgrid]
  have hbig : 128 ≤ PLACEHOLDER_CHAR.val.toNat := by decide
  simp only [charCount_append]
  rw [charCount_cursorTo _ hbig, charCount_strJoin, List.map_map]
  have hrowcount : ((List.range rows).map ((charCount PLACEHOLDER_CHAR) ∘ fun r =>
        (if 0 < r then cursorTo (row + 1 + r) (col + 1) else "")
          ++ strJoin ((List.range cols).map (fun c =>
              String.mk [PLACEHOLDER_CHAR, get_diacritic r, get_diacritic c]))))
      = (List.range rows).map (fun _ => cols) := by
    apply List.map_congr_left
    intro r hr
    have hrlt : r < rows := List.mem_range.mp hr
    simp only [Function.comp_apply]
    rw [charCount_append]
    have hzero : charCount PLACEHOLDER_CHAR
        (if 0 < r then cursorTo (row + 1 + r) (col + 1) else "") = 0 := by
      split
      · exact charCount_cursorTo _ hbig _ _
      · rfl
    rw [hzero, charCount_strJoin, List.map_map]
    have hcell : ((List.range cols).map ((charCount PLACEHOLDER_CHAR) ∘ fun c =>
          String.mk [PLACEHOLDER_CHAR, get_diacritic r, get_diacritic c]))
        = (List.range cols).map (fun _ => 1) := by
      apply List.map_congr_left
      intro c hcm
      have hclt : c < cols := List.mem_range.mp hcm
      have hd1 : get_diacritic r ≠ PLACEHOLDER_CHAR :=
        get_diacritic_ne_placeholder r (by omega)
      have hd2 : get_diacritic c ≠ PLACEHOLDER_CHAR :=
        get_diacritic_ne_placeholder c (by omega)
      simp only [Function.comp_apply, charCount]
      rw [List.count_cons, List.count_cons, List.count_cons, List.count_nil]
      simp [hd1, hd2]
    rw [hcell, sum_map_const]
    omega
  rw [hrowcount, sum_map_const]
  rw [show charCount PLACEHOLDER_CHAR "\x1b[38;5;1m" = 0 from rfl]
  rw [show charCount PLACEHOLDER_CHAR "\x1b[39m" = 0 from rfl]
  omega

/-- C4 witness: the spec example rows = 3, cols = 2 at the origin:
    exactly 6 placeholder glyphs are emitted. -/
theorem placeholder_grid_spec_witness :
    charCount PLACEHOLDER_CHAR (placeholder_grid 1 2 3 0 0) = 3 * 2 :=
  (placeholder_grid_spec 2 3 0 0 (by decide) (by decide) (by decide)
    (by decide) (by decide)).2

end Mkui
